import Mathlib

/-!
Verification of the nvitop/nvhtop specification against the source.

The embedding covers:
* the CUDA-visible-device parser/normalizer (spec section 4.2);
* the `nvhtop` CLI entry point `main` (src/nvhtop/main.py);
* the `Top` container layout logic (src/nvhtop/main.py, class `Top`);
* the background metric collector state machine and the process
  correlation layer (spec sections 4.4, 4.5).

Where the deciding code is not part of the excerpt (the collector and the
parser live in modules that only re-exported names appear for), the
definitions are modelled from the spec and say so in their doc comments.
-/

namespace NvitopVerify

/-! ### Decimal digit helpers (used by the ordinal tokens of the parser) -/

/-- Character for one decimal digit: `d ↦ '0' + d`. -/
def digitToChar (d : Nat) : Char := Char.ofNat (48 + d)

/-- Is this character a decimal digit? -/
def isDigitChar (c : Char) : Bool := decide ('0' ≤ c) && decide (c ≤ '9')

/-- Numeric value of a digit character. -/
def digitVal (c : Char) : Nat := c.toNat - 48

/-- One step of reading a decimal numeral left to right. -/
def digitStep (acc : Nat) (c : Char) : Nat := 10 * acc + digitVal c

/-- Read a digit string as a natural number (left to right). -/
def charsToNat (cs : List Char) : Nat := cs.foldl digitStep 0

/-- Decimal digits of `n`, most significant first; fuel-recursive so that it
computes by reduction.  `natToCharsAux fuel n` is the digit list of `n`
provided `n ≤ fuel`. -/
def natToCharsAux : Nat → Nat → List Char
  | 0, _ => []
  | fuel + 1, n =>
    if n = 0 then [] else natToCharsAux fuel (n / 10) ++ [digitToChar (n % 10)]

/-- Decimal representation of `n` (never empty: `0` is `"0"`). -/
def natToChars (n : Nat) : List Char :=
  if n = 0 then ['0'] else natToCharsAux n n

/-! ### CUDA-visible-device parser / normalizer

Modelled from the spec (section 4.2): the implementation of
`parse_cuda_visible_devices` / `normalize_cuda_visible_devices` is not part
of the excerpt (only the re-export in `nvitop/core/__init__.py` is), so the
grammar below follows the spec's words: a comma-separated list of tokens,
each an integer ordinal, a unique-identifier string (here: one starting
with `GPU-`), or a partition-qualified identifier string (here: one
starting with `MIG-`); the empty string denotes zero visible devices;
parsing is strictly left-to-right and stops at the first invalid or
duplicate token, discarding the remainder. -/

/-- A canonical device identifier: a CUDA ordinal, a device unique
identifier, or a partition-qualified (MIG) identifier. -/
inductive DeviceId where
  | ordinal (index : Nat)
  | uuid (s : List Char)
  | migUuid (s : List Char)
deriving DecidableEq

/-- Leading characters of a device unique-identifier token. -/
def gpuUuidStart : List Char := ['G', 'P', 'U', '-']

/-- Leading characters of a partition-qualified identifier token. -/
def migUuidStart : List Char := ['M', 'I', 'G', '-']

/-- Does `s` start with the character list `p`? -/
def startsWith : List Char → List Char → Bool
  | [], _ => true
  | _ :: _, [] => false
  | p :: ps, c :: cs => decide (p = c) && startsWith ps cs

/-- A token made only of digits (a CUDA ordinal). -/
def isOrdinalToken (t : List Char) : Bool := !t.isEmpty && t.all isDigitChar

/-- Classify one token of the visible-device list; `none` means invalid. -/
def idOfToken? (t : List Char) : Option DeviceId :=
  if isOrdinalToken t then some (.ordinal (charsToNat t))
  else if startsWith migUuidStart t then some (.migUuid t)
  else if startsWith gpuUuidStart t then some (.uuid t)
  else none

/-- Serialize one canonical identifier back to its token form. -/
def tokenOfId : DeviceId → List Char
  | .ordinal n => natToChars n
  | .uuid s => s
  | .migUuid s => s

/-- A canonical identifier: its serialization is a well-formed token of its
own kind (ordinals always are; identifier strings must carry their leading
marker and contain no separator). -/
def canonicalId : DeviceId → Bool
  | .ordinal _ => true
  | .uuid s => startsWith gpuUuidStart s && decide (',' ∉ s)
  | .migUuid s => startsWith migUuidStart s && decide (',' ∉ s)

/-- Split a character list at every comma (`"a,b"` gives `["a", "b"]`,
`""` gives `[""]`). -/
def splitOnComma : List Char → List (List Char)
  | [] => [[]]
  | c :: cs =>
    if c = ',' then [] :: splitOnComma cs
    else
      match splitOnComma cs with
      | [] => [[c]]
      | t :: ts => (c :: t) :: ts

/-- Join tokens with commas (inverse of `splitOnComma` on comma-free
tokens). -/
def joinComma : List (List Char) → List Char
  | [] => []
  | [t] => t
  | t :: ts => t ++ ',' :: joinComma ts

/-- Modelled from the spec: left-to-right token consumption that stops at
the first invalid or duplicate token, discarding the remainder.  `seen`
holds the identifiers already accepted. -/
def parseTokens : List DeviceId → List (List Char) → List DeviceId
  | _, [] => []
  | seen, t :: ts =>
    match idOfToken? t with
    | none => []
    | some d => if d ∈ seen then [] else d :: parseTokens (d :: seen) ts

/-- Modelled from the spec: `parse(string) -> ordered identifier list`.
The empty string denotes zero visible devices. -/
def parse (s : String) : List DeviceId :=
  if s = "" then [] else parseTokens [] (splitOnComma s.data)

/-- Modelled from the spec: `normalize(identifier list) -> string`, the
environment-variable serialization of a canonical identifier list. -/
def normalize (ids : List DeviceId) : String :=
  String.mk (joinComma (ids.map tokenOfId))

/-! ### The `nvhtop` CLI entry point (src/nvhtop/main.py, `main`)

`main` is embedded as a pure function from the parsed command line and the
relevant environment (tty status of stdin/stdout, outcome of the native
library initialization) to an observable result: exit code, stderr lines,
whether `nvmlInit` was called, whether the monitor loop / report ran, and
the threshold tuples stored on the `Device` class. -/

/-- The three monitor modes accepted by `--monitor` (and `Top`). -/
inductive MonitorMode where
  | auto
  | full
  | compact
deriving DecidableEq

/-- The `--monitor` argument as argparse stores it: absent (the sentinel
string `notpresented`), present without a value (`None`), or present with
one of the three mode choices. -/
inductive MonitorArg where
  | notPresented
  | noValue
  | withMode (m : MonitorMode)
deriving DecidableEq

/-- The parsed command line of `nvhtop` (argparse has already checked each
threshold value against `choices=range(1, 100)`). -/
structure Args where
  monitor : MonitorArg
  gpuUtilThresh : Option (Int × Int)
  memUtilThresh : Option (Int × Int)
deriving DecidableEq

/-- argparse accepts a threshold pair iff each value is one of
`choices=range(1, 100)` — no ordering check. -/
def argparseAcceptsThreshPair (a b : Int) : Bool :=
  decide (1 ≤ a) && decide (a ≤ 99) && decide (1 ≤ b) && decide (b ≤ 99)

/-- `tuple(sorted([a, b]))` on a two-element list: the pair in ascending
order (src/nvhtop/main.py lines 145 and 147). -/
def sortedPair (a b : Int) : Int × Int := if a ≤ b then (a, b) else (b, a)

/-- Outcome of `pynvml.nvmlInit()` as `main` distinguishes it: success, or
the `NVMLError_LibraryNotFound` exception it catches. -/
inductive NvmlInitOutcome where
  | ok
  | libraryNotFound (msg : String)
deriving DecidableEq

/-- The environment `main` consults. -/
structure Env where
  stdinIsatty : Bool
  stdoutIsatty : Bool
  nvmlInit : NvmlInitOutcome
deriving DecidableEq

/-- The observable behaviour of one run of `main`. -/
structure MainResult where
  exitCode : Option Int
  stderrLines : List String
  nvmlInitCalled : Bool
  ranMonitorLoop : Bool
  printedReport : Bool
  gpuUtilThresholds : Int × Int
  memUtilThresholds : Int × Int
deriving DecidableEq

/-- Lines 139-140 of `main`: `-m` without a value defaults to `auto`. -/
def resolveMonitor : MonitorArg → MonitorArg
  | .noValue => .withMode .auto
  | m => m

/-- Lines 144-147 of `main`: if a threshold pair was supplied, store
`tuple(sorted(...))` of it; otherwise keep the class default. -/
def threshOrDefault (opt : Option (Int × Int)) (dflt : Int × Int) :
    Int × Int :=
  match opt with
  | some (a, b) => sortedPair a b
  | none => dflt

/-- `main` (src/nvhtop/main.py lines 138-163): resolve the `--monitor`
default, reject monitor mode outside a terminal, store the (sorted)
threshold tuples, initialize NVML (aborting with exit code 1 on
`NVMLError_LibraryNotFound`), then run the monitor loop and/or print the
one-shot report.  `gpuDefault`/`memDefault` are the class-level defaults
`Device.GPU_UTILIZATION_THRESHOLDS` / `Device.MEMORY_UTILIZATION_THRESHOLDS`
(defined in a module outside the excerpt). -/
def nvhtopMain (gpuDefault memDefault : Int × Int) (args : Args) (env : Env) :
    MainResult :=
  if resolveMonitor args.monitor ≠ MonitorArg.notPresented ∧
      ¬(env.stdinIsatty = true ∧ env.stdoutIsatty = true) then
    { exitCode := some 1
      stderrLines := ["Error: Must run nvhtop monitor mode from terminal"]
      nvmlInitCalled := false
      ranMonitorLoop := false
      printedReport := false
      gpuUtilThresholds := gpuDefault
      memUtilThresholds := memDefault }
  else
    match env.nvmlInit with
    | .libraryNotFound msg =>
      { exitCode := some 1
        stderrLines := ["Error: " ++ msg]
        nvmlInitCalled := true
        ranMonitorLoop := false
        printedReport := false
        gpuUtilThresholds := threshOrDefault args.gpuUtilThresh gpuDefault
        memUtilThresholds := threshOrDefault args.memUtilThresh memDefault }
    | .ok =>
      { exitCode := none
        stderrLines := []
        nvmlInitCalled := true
        ranMonitorLoop := resolveMonitor args.monitor != MonitorArg.notPresented
        printedReport := true
        gpuUtilThresholds := threshOrDefault args.gpuUtilThresh gpuDefault
        memUtilThresholds := threshOrDefault args.memUtilThresh memDefault }

/-! ### The `Top` display container (src/nvhtop/main.py, class `Top`)

The two child panels live in a module outside the excerpt (the spec marks
the rendering tree out of scope), so they are abstracted to their `y`
coordinate and `height`; the device panel's height as a function of its
`compact` flag is passed in as `dpHeight`, and the process panel's height
(it varies with the process list) as `ppHeight`. -/

/-- The slice of a panel that `Top`'s layout logic reads and writes. -/
structure Panel where
  y : Int
  height : Nat
deriving DecidableEq

/-- The state of a `Top` container that its layout logic touches. -/
structure TopState where
  mode : MonitorMode
  compact : Bool
  deviceCount : Nat
  devicePanel : Panel
  processPanel : Panel
  height : Nat
  needRedraw : Bool
  termsize : Option (Nat × Nat)
deriving DecidableEq

/-- `Top.__init__` (src/nvhtop/main.py lines 37-57): build the two panels,
place the process panel below the device panel, and set the total
height. -/
def topInit (mode : MonitorMode) (deviceCount : Nat) (dpHeight : Bool → Nat)
    (ppHeight : Nat) : TopState :=
  let compact : Bool := mode == MonitorMode.compact
  let dp : Panel := { y := 0, height := dpHeight compact }
  let pp : Panel := { y := (dp.height : Int) + 1, height := ppHeight }
  { mode := mode
    compact := compact
    deviceCount := deviceCount
    devicePanel := dp
    processPanel := pp
    height := dp.height + 1 + pp.height
    needRedraw := false
    termsize := none }

/-- `Top.poke` (src/nvhtop/main.py lines 69-80): poke the children (their
heights may change, `dpHeight`/`ppHeight` give the post-poke values), in
`auto` mode recompute `compact` from the terminal height and reposition the
process panel below the device panel, then re-establish
`height = device_panel.height + 1 + process_panel.height` and record the
terminal size. -/
def topPoke (t : TopState) (nTermLines nTermCols : Nat)
    (dpHeight : Bool → Nat) (ppHeight : Nat) : TopState :=
  if t.mode = MonitorMode.auto then
    let c : Bool :=
      decide (nTermLines < 4 + 3 * (t.deviceCount + 1) + 1 + ppHeight)
    let dp : Panel := { t.devicePanel with height := dpHeight c }
    let pp : Panel :=
      { t.processPanel with
        height := ppHeight
        y := dp.y + (dp.height : Int) + 1 }
    { t with
      compact := c
      devicePanel := dp
      processPanel := pp
      height := dp.height + 1 + pp.height
      termsize := some (nTermLines, nTermCols)
      needRedraw :=
        t.needRedraw || decide (t.compact ≠ c) ||
          decide (t.termsize ≠ some (nTermLines, nTermCols)) }
  else
    let dp : Panel := { t.devicePanel with height := dpHeight t.compact }
    let pp : Panel := { t.processPanel with height := ppHeight }
    { t with
      devicePanel := dp
      processPanel := pp
      height := dp.height + 1 + pp.height
      termsize := some (nTermLines, nTermCols)
      needRedraw :=
        t.needRedraw || decide (t.termsize ≠ some (nTermLines, nTermCols)) }

/-! ### Process correlation layer

Modelled from the spec (section 4.4): the `nvitop.core.process` module is
not part of the excerpt.  Each tick joins the native resident-process list
against host process details queried by pid; a `NotFound` outcome on the
detail query drops that entry silently, any other error aborts the tick. -/

/-- The typed outcomes of a native call (spec section 4.1). -/
inductive NativeError where
  | unsupported
  | permissionDenied
  | notFound
  | unknown (code : Nat)
deriving DecidableEq

/-- One entry of the per-device resident-process list. -/
structure ResidentEntry where
  pid : Nat
  gpuMemoryUsed : Nat
deriving DecidableEq

/-- Host-side details of one process, as resolved by pid. -/
structure HostProcInfo where
  pid : Nat
  username : String
deriving DecidableEq

/-- A GPU process of one snapshot: host identity joined with per-device
usage. -/
structure GpuProc where
  pid : Nat
  username : String
  gpuMemoryUsed : Nat
deriving DecidableEq

/-- Join one resident entry with its host process details. -/
def joinGpuProc (e : ResidentEntry) (hp : HostProcInfo) : GpuProc :=
  { pid := e.pid, username := hp.username, gpuMemoryUsed := e.gpuMemoryUsed }

/-- Modelled from the spec: correlate the resident list against the host
process table.  A `notFound` detail query drops the entry silently; any
other error aborts the current tick (propagates). -/
def correlate (query : Nat → Except NativeError HostProcInfo) :
    List ResidentEntry → Except NativeError (List GpuProc)
  | [] => .ok []
  | e :: es =>
    match query e.pid with
    | .ok hp => (correlate query es).map (fun rest => joinGpuProc e hp :: rest)
    | .error .notFound => correlate query es
    | .error err => .error err

/-- The GPU-process list a completed tick publishes: exactly the resident
entries whose detail query succeeded. -/
def snapshotOfResidents (query : Nat → Except NativeError HostProcInfo)
    (residents : List ResidentEntry) : List GpuProc :=
  residents.filterMap fun e =>
    match query e.pid with
    | .ok hp => some (joinGpuProc e hp)
    | .error _ => none

/-- A concrete detail-query oracle where the process with pid 2 has
vanished (its query fails with `notFound`) and every other query
succeeds. -/
def demoQuery : Nat → Except NativeError HostProcInfo := fun p =>
  if p = 2 then Except.error NativeError.notFound
  else Except.ok { pid := p, username := "user" }

/-- A concrete resident-process list holding pids 1 and 2. -/
def demoResidents : List ResidentEntry :=
  [{ pid := 1, gpuMemoryUsed := 100 }, { pid := 2, gpuMemoryUsed := 200 }]

/-! ### Background metric collector

Modelled from the spec (section 4.5): the `nvitop.core.collector` module is
not part of the excerpt.  State machine `Idle → Running → Idle`; start from
Running is a no-op returning the existing handle; stop always returns to
Idle; `takeSnapshots` is one synchronous build-and-return cycle with no
state transition and no window side effect. -/

/-- The collector lifecycle state; a running collector carries the handle
returned to the caller of `collect_in_background`. -/
inductive CollectorState where
  | idle
  | running (handle : Nat)
deriving DecidableEq

/-- The background collector: lifecycle state, the next fresh handle, the
number of live sampling loops, and the rolling window of tick samples. -/
structure Collector where
  state : CollectorState
  nextHandle : Nat
  loopCount : Nat
  window : List Nat
deriving DecidableEq

/-- A freshly constructed (idle) collector. -/
def initCollector : Collector :=
  { state := .idle, nextHandle := 0, loopCount := 0, window := [] }

/-- Modelled from the spec: `collect_in_background` — transition to Running
and return a handle; a no-op returning the existing handle when already
Running. -/
def collectInBackground (c : Collector) : Collector × Nat :=
  match c.state with
  | .running h => (c, h)
  | .idle =>
    ({ c with
        state := .running c.nextHandle
        nextHandle := c.nextHandle + 1
        loopCount := c.loopCount + 1 },
      c.nextHandle)

/-- Modelled from the spec: stopping the collector returns it to Idle (and
retires its sampling loop); safe to call when already Idle. -/
def stopCollector (c : Collector) : Collector :=
  match c.state with
  | .running _ => { c with state := .idle, loopCount := c.loopCount - 1 }
  | .idle => c

/-- The operations of the collector's lifecycle step relation. -/
inductive CollectorOp where
  | start
  | halt
  | tick (sample : Nat)

/-- One step of the collector state machine: start, stop, or one background
tick (which only samples while Running). -/
def applyOp (c : Collector) : CollectorOp → Collector
  | .start => (collectInBackground c).1
  | .halt => stopCollector c
  | .tick s =>
    match c.state with
    | .running _ => { c with window := s :: c.window }
    | .idle => c

/-- How many sampling loops a state admits: one while Running, none while
Idle. -/
def loopCountOf : CollectorState → Nat
  | .running _ => 1
  | .idle => 0

/-- The single-sampling-loop invariant: the number of live loops matches
the lifecycle state. -/
def loopInvariant (c : Collector) : Prop := c.loopCount = loopCountOf c.state

/-- An immutable point-in-time snapshot (spec section 3). -/
structure Snapshot where
  timestamp : Nat
  deviceSamples : List Nat
deriving DecidableEq

/-- Build one snapshot from the samples of one tick. -/
def buildSnapshot (time : Nat) (samples : List Nat) : Snapshot :=
  { timestamp := time, deviceSamples := samples }

/-- The observable events of one collector call. -/
inductive CollectorEvent where
  | builtSnapshot
  | startedThread
  | appendedWindow
deriving DecidableEq

/-- Modelled from the spec: `take_snapshots` — exactly one synchronous
build-and-return cycle: the collector state is untouched, no background
thread is started, and the rolling window is not modified. -/
def takeSnapshots (c : Collector) (time : Nat) (samples : List Nat) :
    Collector × Snapshot × List CollectorEvent :=
  (c, buildSnapshot time samples, [CollectorEvent.builtSnapshot])

/-! ## Helper lemmas: decimal digits -/

/-- Reading back the character of a digit recovers the digit. -/
theorem digitVal_digitToChar (d : Nat) (h : d < 10) :
    digitVal (digitToChar d) = d := by
  interval_cases d <;> decide

/-- The character of a digit is a digit character. -/
theorem isDigitChar_digitToChar (d : Nat) (h : d < 10) :
    isDigitChar (digitToChar d) = true := by
  interval_cases d <;> decide

/-- A comma is not a digit character. -/
theorem isDigitChar_comma : isDigitChar ',' = false := by decide

/-- With enough fuel, the digit list of a positive number is nonempty. -/
theorem natToCharsAux_ne_nil (fuel n : Nat) (hn : 0 < n) (hf : n ≤ fuel) :
    natToCharsAux fuel n ≠ [] := by
  cases fuel with
  | zero => omega
  | succ f =>
    simp only [natToCharsAux]
    rw [if_neg (by omega)]
    simp

/-- Every character the digit-list builder emits is a digit character. -/
theorem natToCharsAux_all_digits (fuel : Nat) :
    ∀ n, n ≤ fuel → (natToCharsAux fuel n).all isDigitChar = true := by
  induction fuel with
  | zero => intro n h; rfl
  | succ f ih =>
    intro n h
    simp only [natToCharsAux]
    split
    · rfl
    · rename_i hn0
      rw [List.all_append]
      have h1 : (natToCharsAux f (n / 10)).all isDigitChar = true :=
        ih (n / 10) (by omega)
      have h2 : isDigitChar (digitToChar (n % 10)) = true :=
        isDigitChar_digitToChar (n % 10) (Nat.mod_lt _ (by omega))
      simp [h1, h2]

/-- Reading the emitted digit list back, starting from accumulator `a`,
yields `a` shifted past the list plus `n`. -/
theorem foldl_natToCharsAux (fuel : Nat) :
    ∀ n a, n ≤ fuel →
      (natToCharsAux fuel n).foldl digitStep a =
        a * 10 ^ (natToCharsAux fuel n).length + n := by
  induction fuel with
  | zero =>
    intro n a h
    have hn : n = 0 := by omega
    subst hn
    simp [natToCharsAux]
  | succ f ih =>
    intro n a h
    simp only [natToCharsAux]
    split
    · rename_i hn0
      subst hn0
      simp
    · rename_i hn0
      rw [List.foldl_append, ih (n / 10) a (by omega)]
      simp only [List.foldl_cons, List.foldl_nil, List.length_append,
        List.length_cons, List.length_nil, digitStep]
      rw [digitVal_digitToChar (n % 10) (Nat.mod_lt _ (by omega))]
      rw [Nat.zero_add, pow_succ, ← Nat.mul_assoc]
      generalize a * 10 ^ (natToCharsAux f (n / 10)).length = m
      omega

/-- The decimal representation of `n` is never the empty token. -/
theorem natToChars_ne_nil (n : Nat) : natToChars n ≠ [] := by
  unfold natToChars
  split
  · simp
  · exact natToCharsAux_ne_nil n n (by omega) (Nat.le_refl n)

/-- The decimal representation of `n` is all digit characters. -/
theorem natToChars_all_digits (n : Nat) :
    (natToChars n).all isDigitChar = true := by
  unfold natToChars
  split
  · decide
  · exact natToCharsAux_all_digits n n (Nat.le_refl n)

/-- Reading the decimal representation of `n` back recovers `n`. -/
theorem charsToNat_natToChars (n : Nat) : charsToNat (natToChars n) = n := by
  unfold natToChars charsToNat
  split
  · rename_i hn0; subst hn0; decide
  · rw [foldl_natToCharsAux n n 0 (Nat.le_refl n)]
    simp

/-- The decimal representation of `n` is a valid ordinal token. -/
theorem isOrdinalToken_natToChars (n : Nat) :
    isOrdinalToken (natToChars n) = true := by
  unfold isOrdinalToken
  rw [natToChars_all_digits]
  cases h : natToChars n with
  | nil => exact absurd h (natToChars_ne_nil n)
  | cons c cs => simp

/-- No comma occurs in a decimal representation. -/
theorem comma_not_mem_natToChars (n : Nat) : ',' ∉ natToChars n := by
  intro hmem
  have hall := natToChars_all_digits n
  rw [List.all_eq_true] at hall
  have := hall ',' hmem
  simp [isDigitChar_comma] at this

/-! ## Helper lemmas: comma splitting and joining -/

/-- Splitting never produces the empty token list. -/
theorem splitOnComma_ne_nil (cs : List Char) : splitOnComma cs ≠ [] := by
  induction cs with
  | nil => simp [splitOnComma]
  | cons c cs ih =>
    simp only [splitOnComma]
    split
    · simp
    · cases h : splitOnComma cs with
      | nil => exact absurd h ih
      | cons t ts => simp

/-- No token produced by splitting contains a comma. -/
theorem splitOnComma_no_comma (cs : List Char) :
    ∀ t ∈ splitOnComma cs, ',' ∉ t := by
  induction cs with
  | nil =>
    intro t ht
    simp [splitOnComma] at ht
    subst ht
    simp
  | cons c cs ih =>
    intro t ht
    simp only [splitOnComma] at ht
    by_cases hc : c = ','
    · rw [if_pos hc] at ht
      rcases List.mem_cons.mp ht with rfl | h
      · simp
      · exact ih t h
    · rw [if_neg hc] at ht
      cases hsp : splitOnComma cs with
      | nil => exact absurd hsp (splitOnComma_ne_nil cs)
      | cons t0 ts0 =>
        rw [hsp] at ht
        rcases List.mem_cons.mp ht with rfl | h
        · intro hmem
          rcases List.mem_cons.mp hmem with h2 | h2
          · exact hc h2.symm
          · have ht0 : t0 ∈ splitOnComma cs := by
              rw [hsp]; exact List.mem_cons_self t0 ts0
            exact ih t0 ht0 h2
        · refine ih t ?_
          rw [hsp]
          exact List.mem_cons_of_mem t0 h

/-- A comma-free character list splits into the single token it is. -/
theorem splitOnComma_single (t : List Char) (h : ',' ∉ t) :
    splitOnComma t = [t] := by
  induction t with
  | nil => rfl
  | cons c cs ih =>
    have hc : ¬(c = ',') := fun e => h (by simp [e])
    simp only [splitOnComma, if_neg hc]
    rw [ih (fun hm => h (List.mem_cons_of_mem _ hm))]

/-- Splitting past a leading comma-free token peels it off. -/
theorem splitOnComma_append (t rest : List Char) (h : ',' ∉ t) :
    splitOnComma (t ++ ',' :: rest) = t :: splitOnComma rest := by
  induction t with
  | nil => simp [splitOnComma]
  | cons c cs ih =>
    have hc : ¬(c = ',') := fun e => h (by simp [e])
    simp only [List.cons_append, splitOnComma, if_neg hc, List.append_eq]
    rw [ih (fun hm => h (List.mem_cons_of_mem _ hm))]

/-- Joining comma-free tokens and splitting again recovers the tokens. -/
theorem splitOnComma_joinComma (ts : List (List Char)) (hne : ts ≠ [])
    (h : ∀ t ∈ ts, ',' ∉ t) : splitOnComma (joinComma ts) = ts := by
  induction ts with
  | nil => exact absurd rfl hne
  | cons t ts ih =>
    cases ts with
    | nil => exact splitOnComma_single t (h t (List.mem_cons_self t []))
    | cons t2 ts2 =>
      have hj : joinComma (t :: t2 :: ts2) = t ++ ',' :: joinComma (t2 :: ts2) :=
        rfl
      rw [hj, splitOnComma_append t _ (h t (List.mem_cons_self t (t2 :: ts2)))]
      rw [ih (by simp) (fun u hu => h u (List.mem_cons_of_mem t hu))]

/-- Joining a list headed by a nonempty token is nonempty. -/
theorem joinComma_ne_nil (t : List Char) (ts : List (List Char))
    (h : t ≠ []) : joinComma (t :: ts) ≠ [] := by
  cases ts with
  | nil => exact h
  | cons t2 ts2 =>
    show t ++ ',' :: joinComma (t2 :: ts2) ≠ []
    simp

/-! ## Helper lemmas: token classification -/

/-- `startsWith` detects exactly the lists that extend the pattern. -/
theorem startsWith_iff (p : List Char) :
    ∀ s, startsWith p s = true ↔ ∃ rest, s = p ++ rest := by
  induction p with
  | nil =>
    intro s
    simp [startsWith]
  | cons a as ih =>
    intro s
    cases s with
    | nil =>
      simp [startsWith]
    | cons b bs =>
      simp only [startsWith, Bool.and_eq_true, decide_eq_true_eq, ih,
        List.cons_append, List.cons.injEq]
      constructor
      · rintro ⟨rfl, rest, rfl⟩
        exact ⟨rest, rfl, rfl⟩
      · rintro ⟨rest, hb, hbs⟩
        exact ⟨hb.symm, rest, hbs⟩

/-- The serialization of a canonical identifier is never empty. -/
theorem tokenOfId_ne_nil (d : DeviceId) (h : canonicalId d = true) :
    tokenOfId d ≠ [] := by
  cases d with
  | ordinal n => exact natToChars_ne_nil n
  | uuid s =>
    simp only [canonicalId, Bool.and_eq_true, decide_eq_true_eq] at h
    obtain ⟨rest, rfl⟩ := (startsWith_iff gpuUuidStart s).mp h.1
    simp [tokenOfId, gpuUuidStart]
  | migUuid s =>
    simp only [canonicalId, Bool.and_eq_true, decide_eq_true_eq] at h
    obtain ⟨rest, rfl⟩ := (startsWith_iff migUuidStart s).mp h.1
    simp [tokenOfId, migUuidStart]

/-- The serialization of a canonical identifier contains no separator. -/
theorem comma_not_mem_tokenOfId (d : DeviceId) (h : canonicalId d = true) :
    ',' ∉ tokenOfId d := by
  cases d with
  | ordinal n => exact comma_not_mem_natToChars n
  | uuid s =>
    simp only [canonicalId, Bool.and_eq_true, decide_eq_true_eq] at h
    exact h.2
  | migUuid s =>
    simp only [canonicalId, Bool.and_eq_true, decide_eq_true_eq] at h
    exact h.2

/-- Classifying the serialization of a canonical identifier recovers it. -/
theorem idOfToken?_tokenOfId (d : DeviceId) (h : canonicalId d = true) :
    idOfToken? (tokenOfId d) = some d := by
  cases d with
  | ordinal n =>
    simp only [tokenOfId, idOfToken?]
    rw [if_pos (isOrdinalToken_natToChars n), charsToNat_natToChars]
  | uuid s =>
    simp only [canonicalId, Bool.and_eq_true, decide_eq_true_eq] at h
    obtain ⟨hpre, hnc⟩ := h
    obtain ⟨rest, rfl⟩ := (startsWith_iff gpuUuidStart s).mp hpre
    have hord : isOrdinalToken (gpuUuidStart ++ rest) = false := rfl
    have hmig : startsWith migUuidStart (gpuUuidStart ++ rest) = false := rfl
    simp only [tokenOfId, idOfToken?]
    rw [if_neg (ne_true_of_eq_false hord), if_neg (ne_true_of_eq_false hmig),
      if_pos hpre]
  | migUuid s =>
    simp only [canonicalId, Bool.and_eq_true, decide_eq_true_eq] at h
    obtain ⟨hpre, hnc⟩ := h
    obtain ⟨rest, rfl⟩ := (startsWith_iff migUuidStart s).mp hpre
    have hord : isOrdinalToken (migUuidStart ++ rest) = false := rfl
    simp only [tokenOfId, idOfToken?]
    rw [if_neg (ne_true_of_eq_false hord), if_pos hpre]

/-- Any identifier produced by token classification on a comma-free token
is canonical. -/
theorem canonicalId_of_idOfToken? (t : List Char) (d : DeviceId)
    (hnc : ',' ∉ t) (hq : idOfToken? t = some d) : canonicalId d = true := by
  unfold idOfToken? at hq
  split at hq
  · have := Option.some.inj hq
    subst this
    rfl
  · split at hq
    · rename_i hmig
      have := Option.some.inj hq
      subst this
      simp only [canonicalId, Bool.and_eq_true, decide_eq_true_eq]
      exact ⟨hmig, hnc⟩
    · split at hq
      · rename_i hgpu
        have := Option.some.inj hq
        subst this
        simp only [canonicalId, Bool.and_eq_true, decide_eq_true_eq]
        exact ⟨hgpu, hnc⟩
      · exact absurd hq (by simp)

/-! ## Helper lemmas: the token consumer -/

/-- Feeding the serialized tokens of a canonical, duplicate-free identifier
list (disjoint from what was already seen) back to the consumer recovers
the list. -/
theorem parseTokens_map (L : List DeviceId) :
    ∀ seen, (∀ d ∈ L, canonicalId d = true) → L.Nodup →
      (∀ d ∈ L, d ∉ seen) → parseTokens seen (L.map tokenOfId) = L := by
  induction L with
  | nil => intro seen _ _ _; rfl
  | cons d L ih =>
    intro seen hc hnd hdisj
    simp only [List.map_cons, parseTokens]
    rw [idOfToken?_tokenOfId d (hc d (List.mem_cons_self d L))]
    show (if d ∈ seen then [] else d :: parseTokens (d :: seen) (L.map tokenOfId)) =
      d :: L
    rw [if_neg (hdisj d (List.mem_cons_self d L))]
    simp only [List.cons.injEq, true_and]
    refine ih (d :: seen) (fun e he => hc e (List.mem_cons_of_mem d he))
      (List.nodup_cons.mp hnd).2 ?_
    intro e he hmem
    rcases List.mem_cons.mp hmem with rfl | hseen
    · exact (List.nodup_cons.mp hnd).1 he
    · exact hdisj e (List.mem_cons_of_mem d he) hseen

/-- Whatever the consumer accepts from comma-free tokens is canonical,
duplicate-free, and disjoint from the already-seen identifiers. -/
theorem parseTokens_sound (ts : List (List Char)) :
    ∀ seen, (∀ t ∈ ts, ',' ∉ t) →
      (∀ d ∈ parseTokens seen ts, canonicalId d = true) ∧
        (parseTokens seen ts).Nodup ∧
        (∀ d ∈ parseTokens seen ts, d ∉ seen) := by
  induction ts with
  | nil =>
    intro seen _
    simp [parseTokens]
  | cons t ts ih =>
    intro seen hts
    cases hq : idOfToken? t with
    | none => simp [parseTokens, hq]
    | some d =>
      by_cases hd : d ∈ seen
      · simp [parseTokens, hq, hd]
      · simp only [parseTokens, hq]
        rw [if_neg hd]
        obtain ⟨ihc, ihnd, ihdisj⟩ :=
          ih (d :: seen) (fun u hu => hts u (List.mem_cons_of_mem t hu))
        refine ⟨?_, ?_, ?_⟩
        · intro e he
          rcases List.mem_cons.mp he with rfl | h
          · exact canonicalId_of_idOfToken? t e
              (hts t (List.mem_cons_self t ts)) hq
          · exact ihc e h
        · refine List.nodup_cons.mpr ⟨?_, ihnd⟩
          intro hmem
          exact ihdisj d hmem (List.mem_cons_self d seen)
        · intro e he
          rcases List.mem_cons.mp he with rfl | h
          · exact hd
          · exact fun hmem => ihdisj e h (List.mem_cons_of_mem d hmem)

/-- `parse` after `normalize` recovers any canonical, duplicate-free
identifier list. -/
theorem parse_normalize_aux (L : List DeviceId)
    (hc : ∀ d ∈ L, canonicalId d = true) (hnd : L.Nodup) :
    parse (normalize L) = L := by
  cases L with
  | nil => decide
  | cons d L =>
    have htok : ∀ u ∈ (d :: L).map tokenOfId, ',' ∉ u := by
      intro u hu
      obtain ⟨e, he, rfl⟩ := List.mem_map.mp hu
      exact comma_not_mem_tokenOfId e (hc e he)
    have hjoin : joinComma ((d :: L).map tokenOfId) ≠ [] := by
      simp only [List.map_cons]
      exact joinComma_ne_nil _ _ (tokenOfId_ne_nil d (hc d (List.mem_cons_self d L)))
    unfold parse normalize
    rw [if_neg (fun hs => hjoin (congrArg String.data hs))]
    show parseTokens [] (splitOnComma (joinComma ((d :: L).map tokenOfId))) = d :: L
    rw [splitOnComma_joinComma _ (by simp) htok]
    exact parseTokens_map (d :: L) [] hc hnd (by simp)

/-- Every parse result is canonical and duplicate-free. -/
theorem parse_canonical (s : String) :
    (∀ d ∈ parse s, canonicalId d = true) ∧ (parse s).Nodup := by
  unfold parse
  split
  · simp
  · obtain ⟨h1, h2, _⟩ :=
      parseTokens_sound (splitOnComma s.data) [] (splitOnComma_no_comma s.data)
    exact ⟨h1, h2⟩

/-! ## Claim theorems -/

/-- C2: `parse` consumes tokens strictly left to right and stops at the
first invalid or duplicate token, discarding the remainder — whatever
follows such a token does not influence the result; in particular
`parse "0,bogus,1"` yields only the identifier of device 0 and never that
of device 1. -/
theorem parse_stops_at_first_bad_token :
    (∀ (seen : List DeviceId) (t : List Char) (ts1 ts2 : List (List Char)),
        (idOfToken? t = none ∨ ∃ d, idOfToken? t = some d ∧ d ∈ seen) →
        parseTokens seen (t :: ts1) = parseTokens seen (t :: ts2)) ∧
      parse "0,bogus,1" = [DeviceId.ordinal 0] ∧
      DeviceId.ordinal 1 ∉ parse "0,bogus,1" := by
  refine ⟨?_, by decide, by decide⟩
  intro seen t ts1 ts2 hbad
  rcases hbad with hnone | ⟨d, hsome, hmem⟩
  · simp [parseTokens, hnone]
  · simp [parseTokens, hsome, hmem]

/-- C2 witness: the remainder after the invalid token `bogus` is
discarded — appending a further token does not change the parse. -/
theorem parse_stops_at_first_bad_token_check :
    parseTokens [] [['b', 'o', 'g', 'u', 's'], ['1']] =
      parseTokens [] [['b', 'o', 'g', 'u', 's']] :=
  parse_stops_at_first_bad_token.1 [] ['b', 'o', 'g', 'u', 's'] [['1']] []
    (Or.inl (by decide))

/-- C3: for every canonical identifier list `L`, `parse (normalize L) = L`;
and re-serializing a valid parse reparses to the same ordinal list:
`parse (normalize (parse x)) = parse x` for every input `x`. -/
theorem parse_normalize_roundtrip :
    (∀ L : List DeviceId, (∀ d ∈ L, canonicalId d = true) → L.Nodup →
        parse (normalize L) = L) ∧
      (∀ s : String, parse (normalize (parse s)) = parse s) := by
  refine ⟨parse_normalize_aux, ?_⟩
  intro s
  obtain ⟨h1, h2⟩ := parse_canonical s
  exact parse_normalize_aux (parse s) h1 h2

/-- C3 witness: the roundtrip at a concrete canonical list holding an
ordinal and a unique identifier. -/
theorem parse_normalize_roundtrip_check :
    parse (normalize [DeviceId.ordinal 0,
        DeviceId.uuid ['G', 'P', 'U', '-', 'a']]) =
      [DeviceId.ordinal 0, DeviceId.uuid ['G', 'P', 'U', '-', 'a']] :=
  parse_normalize_roundtrip.1
    [DeviceId.ordinal 0, DeviceId.uuid ['G', 'P', 'U', '-', 'a']]
    (by decide) (by decide)

/-- Resolving the monitor default never turns a presented flag into the
absent sentinel. -/
theorem resolveMonitor_ne_notPresented (m : MonitorArg)
    (hm : m ≠ MonitorArg.notPresented) :
    resolveMonitor m ≠ MonitorArg.notPresented := by
  cases m with
  | notPresented => exact absurd rfl hm
  | noValue => simp [resolveMonitor]
  | withMode mode => simp [resolveMonitor]

/-- C1 counterexample: supplying `--gpu-util-thresh 80 30` (th1 ≥ th2) is
not rejected — `main` completes with no error exit and silently coerces the
pair into the sorted `(30, 80)`. -/
theorem thresholds_not_rejected :
    (nvhtopMain (10, 80) (10, 80)
        { monitor := MonitorArg.notPresented
          gpuUtilThresh := some (80, 30)
          memUtilThresh := none }
        { stdinIsatty := true, stdoutIsatty := true,
          nvmlInit := NvmlInitOutcome.ok }).exitCode = none ∧
      (nvhtopMain (10, 80) (10, 80)
        { monitor := MonitorArg.notPresented
          gpuUtilThresh := some (80, 30)
          memUtilThresh := none }
        { stdinIsatty := true, stdoutIsatty := true,
          nvmlInit := NvmlInitOutcome.ok }).gpuUtilThresholds = (30, 80) := by
  decide

/-- C1 (amended): a supplied utilization-threshold pair `(th1, th2)` with
each value accepted by argparse (`choices=range(1, 100)`) is never
rejected; the assignment silently sorts it, so when the assignment runs
(the terminal check passed) the stored thresholds satisfy
low ≤ high with both in [1, 99] — equality occurs when th1 = th2, and a
pair with th1 ≥ th2 is reordered rather than refused. -/
theorem thresholds_sorted_and_in_range :
    (∀ (gd md : Int × Int) (args : Args) (env : Env) (a b : Int),
        args.gpuUtilThresh = some (a, b) →
        argparseAcceptsThreshPair a b = true →
        env.stdinIsatty = true ∧ env.stdoutIsatty = true →
        (nvhtopMain gd md args env).gpuUtilThresholds.1 ≤
            (nvhtopMain gd md args env).gpuUtilThresholds.2 ∧
          1 ≤ (nvhtopMain gd md args env).gpuUtilThresholds.1 ∧
          (nvhtopMain gd md args env).gpuUtilThresholds.1 ≤ 99 ∧
          1 ≤ (nvhtopMain gd md args env).gpuUtilThresholds.2 ∧
          (nvhtopMain gd md args env).gpuUtilThresholds.2 ≤ 99) ∧
      (∀ (gd md : Int × Int) (args : Args) (env : Env) (a b : Int),
        args.memUtilThresh = some (a, b) →
        argparseAcceptsThreshPair a b = true →
        env.stdinIsatty = true ∧ env.stdoutIsatty = true →
        (nvhtopMain gd md args env).memUtilThresholds.1 ≤
            (nvhtopMain gd md args env).memUtilThresholds.2 ∧
          1 ≤ (nvhtopMain gd md args env).memUtilThresholds.1 ∧
          (nvhtopMain gd md args env).memUtilThresholds.1 ≤ 99 ∧
          1 ≤ (nvhtopMain gd md args env).memUtilThresholds.2 ∧
          (nvhtopMain gd md args env).memUtilThresholds.2 ≤ 99) := by
  constructor
  · intro gd md args env a b hg hab htty
    simp only [argparseAcceptsThreshPair, Bool.and_eq_true,
      decide_eq_true_eq] at hab
    unfold nvhtopMain
    rw [if_neg (fun hcond => hcond.2 htty)]
    cases env.nvmlInit with
    | libraryNotFound msg =>
      simp only [threshOrDefault, hg, sortedPair]
      split <;> simp <;> omega
    | ok =>
      simp only [threshOrDefault, hg, sortedPair]
      split <;> simp <;> omega
  · intro gd md args env a b hg hab htty
    simp only [argparseAcceptsThreshPair, Bool.and_eq_true,
      decide_eq_true_eq] at hab
    unfold nvhtopMain
    rw [if_neg (fun hcond => hcond.2 htty)]
    cases env.nvmlInit with
    | libraryNotFound msg =>
      simp only [threshOrDefault, hg, sortedPair]
      split <;> simp <;> omega
    | ok =>
      simp only [threshOrDefault, hg, sortedPair]
      split <;> simp <;> omega

/-- C1 (amended) witness: `--gpu-util-thresh 80 30` is stored sorted and
in range. -/
theorem thresholds_sorted_and_in_range_check :
    (nvhtopMain (10, 80) (10, 80)
        { monitor := MonitorArg.notPresented
          gpuUtilThresh := some (80, 30)
          memUtilThresh := none }
        { stdinIsatty := true, stdoutIsatty := true,
          nvmlInit := NvmlInitOutcome.ok }).gpuUtilThresholds.1 ≤
        (nvhtopMain (10, 80) (10, 80)
        { monitor := MonitorArg.notPresented
          gpuUtilThresh := some (80, 30)
          memUtilThresh := none }
        { stdinIsatty := true, stdoutIsatty := true,
          nvmlInit := NvmlInitOutcome.ok }).gpuUtilThresholds.2 :=
  (thresholds_sorted_and_in_range.1 (10, 80) (10, 80)
    { monitor := MonitorArg.notPresented
      gpuUtilThresh := some (80, 30)
      memUtilThresh := none }
    { stdinIsatty := true, stdoutIsatty := true,
      nvmlInit := NvmlInitOutcome.ok }
    80 30 rfl (by decide) ⟨rfl, rfl⟩).1

/-- C4: when `nvmlInit` fails with `NVMLError_LibraryNotFound` and `main`
reaches the initialization (the terminal check passed), the failure is
reported exactly once on stderr, startup is aborted (no monitor loop, no
report), and `main` returns the non-zero exit status 1. -/
theorem nvml_init_failure_aborts
    (gd md : Int × Int) (args : Args) (env : Env) (msg : String)
    (hfail : env.nvmlInit = NvmlInitOutcome.libraryNotFound msg)
    (hcalled : (nvhtopMain gd md args env).nvmlInitCalled = true) :
    (nvhtopMain gd md args env).stderrLines = ["Error: " ++ msg] ∧
      (nvhtopMain gd md args env).exitCode = some 1 ∧
      (nvhtopMain gd md args env).ranMonitorLoop = false ∧
      (nvhtopMain gd md args env).printedReport = false := by
  unfold nvhtopMain at hcalled ⊢
  by_cases hcond : resolveMonitor args.monitor ≠ MonitorArg.notPresented ∧
      ¬(env.stdinIsatty = true ∧ env.stdoutIsatty = true)
  · rw [if_pos hcond] at hcalled
    exact absurd hcalled (by simp)
  · rw [if_neg hcond, hfail]
    simp

/-- C4 witness: a concrete run whose NVML initialization fails. -/
theorem nvml_init_failure_aborts_check :
    (nvhtopMain (10, 80) (10, 80)
        { monitor := MonitorArg.notPresented
          gpuUtilThresh := none
          memUtilThresh := none }
        { stdinIsatty := true, stdoutIsatty := true,
          nvmlInit := NvmlInitOutcome.libraryNotFound "NVML Not Found" }).stderrLines =
        ["Error: " ++ "NVML Not Found"] ∧
      (nvhtopMain (10, 80) (10, 80)
        { monitor := MonitorArg.notPresented
          gpuUtilThresh := none
          memUtilThresh := none }
        { stdinIsatty := true, stdoutIsatty := true,
          nvmlInit := NvmlInitOutcome.libraryNotFound "NVML Not Found" }).exitCode =
        some 1 ∧
      (nvhtopMain (10, 80) (10, 80)
        { monitor := MonitorArg.notPresented
          gpuUtilThresh := none
          memUtilThresh := none }
        { stdinIsatty := true, stdoutIsatty := true,
          nvmlInit := NvmlInitOutcome.libraryNotFound "NVML Not Found" }).ranMonitorLoop =
        false ∧
      (nvhtopMain (10, 80) (10, 80)
        { monitor := MonitorArg.notPresented
          gpuUtilThresh := none
          memUtilThresh := none }
        { stdinIsatty := true, stdoutIsatty := true,
          nvmlInit := NvmlInitOutcome.libraryNotFound "NVML Not Found" }).printedReport =
        false :=
  nvml_init_failure_aborts (10, 80) (10, 80)
    { monitor := MonitorArg.notPresented
      gpuUtilThresh := none
      memUtilThresh := none }
    { stdinIsatty := true, stdoutIsatty := true,
      nvmlInit := NvmlInitOutcome.libraryNotFound "NVML Not Found" }
    "NVML Not Found" rfl (by decide)

/-- C9: when monitor mode is requested (the `--monitor` flag is present,
with or without an argument) and stdin or stdout is not a terminal, `main`
prints the terminal-mode error to stderr and returns exit status 1 without
ever calling `nvmlInit`. -/
theorem monitor_requires_tty
    (gd md : Int × Int) (args : Args) (env : Env)
    (hm : args.monitor ≠ MonitorArg.notPresented)
    (htty : env.stdinIsatty = false ∨ env.stdoutIsatty = false) :
    (nvhtopMain gd md args env).stderrLines =
        ["Error: Must run nvhtop monitor mode from terminal"] ∧
      (nvhtopMain gd md args env).exitCode = some 1 ∧
      (nvhtopMain gd md args env).nvmlInitCalled = false := by
  have hcond : resolveMonitor args.monitor ≠ MonitorArg.notPresented ∧
      ¬(env.stdinIsatty = true ∧ env.stdoutIsatty = true) := by
    refine ⟨resolveMonitor_ne_notPresented args.monitor hm, ?_⟩
    rintro ⟨h1, h2⟩
    rcases htty with h | h
    · rw [h1] at h; exact Bool.noConfusion h
    · rw [h2] at h; exact Bool.noConfusion h
  unfold nvhtopMain
  rw [if_pos hcond]
  simp

/-- C9 witness: `--monitor` without a terminal on stdin. -/
theorem monitor_requires_tty_check :
    (nvhtopMain (10, 80) (10, 80)
        { monitor := MonitorArg.noValue
          gpuUtilThresh := none
          memUtilThresh := none }
        { stdinIsatty := false, stdoutIsatty := true,
          nvmlInit := NvmlInitOutcome.ok }).stderrLines =
        ["Error: Must run nvhtop monitor mode from terminal"] ∧
      (nvhtopMain (10, 80) (10, 80)
        { monitor := MonitorArg.noValue
          gpuUtilThresh := none
          memUtilThresh := none }
        { stdinIsatty := false, stdoutIsatty := true,
          nvmlInit := NvmlInitOutcome.ok }).exitCode = some 1 ∧
      (nvhtopMain (10, 80) (10, 80)
        { monitor := MonitorArg.noValue
          gpuUtilThresh := none
          memUtilThresh := none }
        { stdinIsatty := false, stdoutIsatty := true,
          nvmlInit := NvmlInitOutcome.ok }).nvmlInitCalled = false :=
  monitor_requires_tty (10, 80) (10, 80)
    { monitor := MonitorArg.noValue
      gpuUtilThresh := none
      memUtilThresh := none }
    { stdinIsatty := false, stdoutIsatty := true,
      nvmlInit := NvmlInitOutcome.ok }
    (by decide) (Or.inl rfl)

/-- C10: `Top` maintains
`height = device_panel.height + 1 + process_panel.height`: the invariant is
established by `Top.__init__` and re-established by every `Top.poke`, which
in `auto` mode also repositions the process panel to
`device_panel.y + device_panel.height + 1`. -/
theorem top_layout_invariant :
    (∀ (mode : MonitorMode) (dc : Nat) (dpH : Bool → Nat) (ppH : Nat),
        (topInit mode dc dpH ppH).height =
          (topInit mode dc dpH ppH).devicePanel.height + 1 +
            (topInit mode dc dpH ppH).processPanel.height) ∧
      (∀ (t : TopState) (lines cols : Nat) (dpH : Bool → Nat) (ppH : Nat),
        (topPoke t lines cols dpH ppH).height =
          (topPoke t lines cols dpH ppH).devicePanel.height + 1 +
            (topPoke t lines cols dpH ppH).processPanel.height) ∧
      (∀ (t : TopState) (lines cols : Nat) (dpH : Bool → Nat) (ppH : Nat),
        t.mode = MonitorMode.auto →
        (topPoke t lines cols dpH ppH).processPanel.y =
          (topPoke t lines cols dpH ppH).devicePanel.y +
            ((topPoke t lines cols dpH ppH).devicePanel.height : Int) + 1) := by
  refine ⟨?_, ?_, ?_⟩
  · intro mode dc dpH ppH
    rfl
  · intro t lines cols dpH ppH
    unfold topPoke
    split <;> rfl
  · intro t lines cols dpH ppH hmode
    unfold topPoke
    rw [if_pos hmode]

/-- C10 witness: one `auto`-mode poke on a concrete state repositions the
process panel directly below the device panel. -/
theorem top_layout_invariant_check :
    (topPoke
        { mode := MonitorMode.auto, compact := false, deviceCount := 1,
          devicePanel := { y := 0, height := 3 },
          processPanel := { y := 4, height := 2 },
          height := 6, needRedraw := false, termsize := none }
        24 80 (fun c => if c then 2 else 3) 2).processPanel.y =
      (topPoke
        { mode := MonitorMode.auto, compact := false, deviceCount := 1,
          devicePanel := { y := 0, height := 3 },
          processPanel := { y := 4, height := 2 },
          height := 6, needRedraw := false, termsize := none }
        24 80 (fun c => if c then 2 else 3) 2).devicePanel.y +
        ((topPoke
          { mode := MonitorMode.auto, compact := false, deviceCount := 1,
            devicePanel := { y := 0, height := 3 },
            processPanel := { y := 4, height := 2 },
            height := 6, needRedraw := false, termsize := none }
          24 80 (fun c => if c then 2 else 3) 2).devicePanel.height : Int) + 1 :=
  top_layout_invariant.2.2
    { mode := MonitorMode.auto, compact := false, deviceCount := 1,
      devicePanel := { y := 0, height := 3 },
      processPanel := { y := 4, height := 2 },
      height := 6, needRedraw := false, termsize := none }
    24 80 (fun c => if c then 2 else 3) 2 rfl

/-- Under benign outcomes (success or `notFound`) correlation completes and
publishes exactly the successfully queried entries. -/
theorem correlate_eq_snapshot (query : Nat → Except NativeError HostProcInfo) :
    ∀ residents : List ResidentEntry,
      (∀ e ∈ residents,
        query e.pid = Except.error NativeError.notFound ∨
          ∃ hp, query e.pid = Except.ok hp) →
      correlate query residents =
        Except.ok (snapshotOfResidents query residents) := by
  intro residents
  induction residents with
  | nil => intro _; rfl
  | cons e es ih =>
    intro hb
    have he := hb e (List.mem_cons_self e es)
    have ihr := ih (fun u hu => hb u (List.mem_cons_of_mem e hu))
    rcases he with hnf | ⟨hp, hok⟩
    · simp only [correlate, snapshotOfResidents, List.filterMap_cons, hnf]
      simp only [snapshotOfResidents] at ihr
      exact ihr
    · simp only [correlate, snapshotOfResidents, List.filterMap_cons, hok]
      simp only [snapshotOfResidents] at ihr
      rw [ihr]
      simp [Except.map]

/-- Every published GPU process stems from a successful detail query on its
own pid. -/
theorem snapshot_pid_ok (query : Nat → Except NativeError HostProcInfo)
    (residents : List ResidentEntry) (g : GpuProc)
    (hg : g ∈ snapshotOfResidents query residents) :
    ∃ hp, query g.pid = Except.ok hp := by
  simp only [snapshotOfResidents, List.mem_filterMap] at hg
  obtain ⟨e, he, hfe⟩ := hg
  cases hq : query e.pid with
  | ok hp =>
    rw [hq] at hfe
    have hge := Option.some.inj hfe
    subst hge
    exact ⟨hp, by simpa [joinGpuProc] using hq⟩
  | error err =>
    rw [hq] at hfe
    exact absurd hfe (by simp)

/-- C5: if every resident entry's detail query either succeeds or fails
with `NotFound` (the benign vanished-process race), the tick completes
normally — correlation returns `ok`, never propagating the `NotFound` — and
every entry whose process vanished is silently omitted from the published
snapshot. -/
theorem vanished_process_dropped
    (query : Nat → Except NativeError HostProcInfo)
    (residents : List ResidentEntry)
    (hbenign : ∀ e ∈ residents,
      query e.pid = Except.error NativeError.notFound ∨
        ∃ hp, query e.pid = Except.ok hp) :
    correlate query residents =
        Except.ok (snapshotOfResidents query residents) ∧
      ∀ e ∈ residents, query e.pid = Except.error NativeError.notFound →
        ∀ g ∈ snapshotOfResidents query residents, g.pid ≠ e.pid := by
  refine ⟨correlate_eq_snapshot query residents hbenign, ?_⟩
  intro e _ hnf g hg heq
  obtain ⟨hp, hok⟩ := snapshot_pid_ok query residents g hg
  rw [heq, hnf] at hok
  exact Except.noConfusion hok

/-- C5 witness: pid 2 vanishes between listing and detail query; the tick
returns `ok` and pid 2 is absent from the snapshot. -/
theorem vanished_process_dropped_check :
    correlate demoQuery demoResidents =
        Except.ok (snapshotOfResidents demoQuery demoResidents) ∧
      ∀ e ∈ demoResidents,
        demoQuery e.pid = Except.error NativeError.notFound →
        ∀ g ∈ snapshotOfResidents demoQuery demoResidents, g.pid ≠ e.pid :=
  vanished_process_dropped demoQuery demoResidents
    (by
      intro e he
      simp only [demoResidents] at he
      rcases List.mem_cons.mp he with rfl | he2
      · exact Or.inr ⟨{ pid := 1, username := "user" }, rfl⟩
      · rcases List.mem_cons.mp he2 with rfl | he3
        · exact Or.inl rfl
        · cases he3)

/-- C6: starting an already-running collector is a no-op returning the
existing handle; every step of the lifecycle relation preserves the
at-most-one-sampling-loop invariant (which holds initially); and stopping
always returns the collector to Idle. -/
theorem collector_single_loop :
    (∀ (c : Collector) (h : Nat), c.state = CollectorState.running h →
        collectInBackground c = (c, h)) ∧
      (∀ (c : Collector) (op : CollectorOp),
        loopInvariant c → loopInvariant (applyOp c op)) ∧
      (∀ c : Collector, (stopCollector c).state = CollectorState.idle) ∧
      loopInvariant initCollector := by
  refine ⟨?_, ?_, ?_, rfl⟩
  · intro c h hrun
    simp [collectInBackground, hrun]
  · intro c op hinv
    obtain ⟨st, nh, lc, w⟩ := c
    cases st <;> cases op <;>
      simp_all [applyOp, collectInBackground, stopCollector, loopInvariant,
        loopCountOf]
  · intro c
    obtain ⟨st, nh, lc, w⟩ := c
    cases st <;> rfl

/-- C6 witness: starting a collector already running with handle 7 returns
the same collector and handle 7. -/
theorem collector_single_loop_check :
    collectInBackground
        { state := CollectorState.running 7, nextHandle := 8,
          loopCount := 1, window := [] } =
      ({ state := CollectorState.running 7, nextHandle := 8,
          loopCount := 1, window := [] }, 7) :=
  collector_single_loop.1
    { state := CollectorState.running 7, nextHandle := 8,
      loopCount := 1, window := [] } 7 rfl

/-- C7: `takeSnapshots` on an idle collector performs exactly one
synchronous build-and-return cycle: the collector is returned unchanged
(still Idle, rolling window untouched), exactly one snapshot is built, and
no background thread is started and no window append happens. -/
theorem takeSnapshots_one_shot (c : Collector) (time : Nat)
    (samples : List Nat) (hidle : c.state = CollectorState.idle) :
    (takeSnapshots c time samples).1 = c ∧
      (takeSnapshots c time samples).2.2 = [CollectorEvent.builtSnapshot] ∧
      CollectorEvent.startedThread ∉ (takeSnapshots c time samples).2.2 ∧
      CollectorEvent.appendedWindow ∉ (takeSnapshots c time samples).2.2 ∧
      (takeSnapshots c time samples).1.state = CollectorState.idle ∧
      (takeSnapshots c time samples).1.window = c.window := by
  refine ⟨rfl, rfl, ?_, ?_, hidle, rfl⟩
  · show CollectorEvent.startedThread ∉ [CollectorEvent.builtSnapshot]
    decide
  · show CollectorEvent.appendedWindow ∉ [CollectorEvent.builtSnapshot]
    decide

/-- C7 witness: one synchronous snapshot on the fresh idle collector. -/
theorem takeSnapshots_one_shot_check :
    (takeSnapshots initCollector 5 [42]).1 = initCollector ∧
      (takeSnapshots initCollector 5 [42]).2.2 =
        [CollectorEvent.builtSnapshot] ∧
      CollectorEvent.startedThread ∉ (takeSnapshots initCollector 5 [42]).2.2 ∧
      CollectorEvent.appendedWindow ∉ (takeSnapshots initCollector 5 [42]).2.2 ∧
      (takeSnapshots initCollector 5 [42]).1.state = CollectorState.idle ∧
      (takeSnapshots initCollector 5 [42]).1.window = initCollector.window :=
  takeSnapshots_one_shot initCollector 5 [42] rfl

end NvitopVerify
